import Mathlib

/-!
Verification of the document/subscription front-end (`src/pages/Login.tsx`
and `src/pages/document/AddDocument.tsx`) against its specification.

The TypeScript is embedded shallowly: strings are `String`, spreadsheet rows
are `List String`, remote calls are oracles passed as function parameters,
and the event-loop handlers become pure functions from state to state.
JavaScript string primitives (`trim`, `toLowerCase`, `split(',')`, `x || d`)
are implemented structurally over `String.data` so that every definition
evaluates by kernel reduction.
-/

/-- JS `Array.prototype.trim`-style whitespace stripping on a character list. -/
def jsTrimList (cs : List Char) : List Char :=
  ((cs.dropWhile Char.isWhitespace).reverse.dropWhile Char.isWhitespace).reverse

/-- JS `String.prototype.trim` (ASCII whitespace model). -/
def jsTrim (s : String) : String := String.mk (jsTrimList s.data)

/-- JS `String.prototype.toLowerCase` (ASCII model). -/
def jsToLower (s : String) : String := String.mk (s.data.map Char.toLower)

/-- Splitting a character list at commas, as JS `split(',')` does. -/
def splitCommaAux : List Char → List Char → List (List Char)
  | [], acc => [acc.reverse]
  | c :: rest, acc =>
    if c = ',' then acc.reverse :: splitCommaAux rest []
    else splitCommaAux rest (c :: acc)

/-- JS `String.prototype.split(',')`. -/
def splitComma (s : String) : List String :=
  (splitCommaAux s.data []).map String.mk

/-- JS `s || d` on strings: the empty string is falsy. -/
def jsOr (s d : String) : String := if s = "" then d else s

/-- JS truthiness of an optional string (`undefined` and `""` are falsy). -/
def optTruthy : Option String → Bool
  | some s => !(s == "")
  | none => false

namespace Login

/-- `row[i] || ""`: a spreadsheet cell, empty string when the column is absent. -/
def col (row : List String) (i : Nat) : String := (row.get? i).getD ""

/-- The predicate of the `rows.find` call in `Login.handleSubmit`:
trimmed username and password columns equal the trimmed inputs. -/
def credMatch (username password : String) (row : List String) : Bool :=
  (jsTrim (col row 1) == jsTrim username) && (jsTrim (col row 2) == jsTrim password)

/-- `rows.find(row => ...)` over the header-stripped credential rows. -/
def findCredRow (rows : List (List String)) (username password : String) :
    Option (List String) :=
  rows.find? (credMatch username password)

/-- The object passed to `setAuthenticatedUser`. -/
structure AuthUser where
  id : String
  name : String
  role : String
  permissions : List String
deriving DecidableEq

/-- The user-visible outcome of the credential check. -/
inductive LoginOutcome where
  | success (user : AuthUser)
  | invalidCredentials
  | deletedUser
deriving DecidableEq

/-- The fixed permission set assigned to the admin role. -/
def adminPermissions : List String :=
  ["Dashboard", "Document", "Subscription", "Loan", "Calendar", "Master", "Settings"]

/-- `raw.split(',').map(p => p.trim()).filter(p => p.length > 0)`. -/
def splitTrimFilter (raw : String) : List String :=
  ((splitComma raw).map jsTrim).filter (fun s => 0 < s.length)

/-- `(foundRow[3] || "user").toLowerCase()`. -/
def roleOf (row : List String) : String := jsToLower (jsOr (col row 3) "user")

/-- The permission list derived from a credential row. -/
def permissionsOf (row : List String) : List String :=
  if roleOf row = "admin" then adminPermissions else splitTrimFilter (col row 4)

/-- `Login.handleSubmit` after the fetch: strip the header row, find the first
row matching the trimmed credentials, reject it when column F is the
sentinel `"Deleted"`, otherwise build the authenticated user. -/
def loginCheck (data : List (List String)) (username password : String) : LoginOutcome :=
  match findCredRow (data.drop 1) username password with
  | none => LoginOutcome.invalidCredentials
  | some row =>
    if jsTrim (col row 5) = "Deleted" then LoginOutcome.deletedUser
    else LoginOutcome.success
      { id := col row 1
        name := jsTrim (col row 0)
        role := roleOf row
        permissions := permissionsOf row }

/-- Whether the check ended in a successful login. -/
def loginSucceeds : LoginOutcome → Bool
  | LoginOutcome.success _ => true
  | _ => false

/-- A credentials table whose first matching row is flagged `Deleted` while a
later row matches and is not flagged. -/
def credTableCex : List (List String) :=
  [["Name", "Username", "Password", "Role", "Permission", "Status"],
   ["Bob", "u1", "p1", "user", "", "Deleted"],
   ["Ann", "u1", "p1", "user", "Dashboard", ""]]

end Login

/-- Decomposition of a successful `List.find?`: the found element splits the
list, and the predicate fails on everything before it. -/
theorem find?_decomp {α : Type} (p : α → Bool) :
    ∀ (l : List α) (a : α), l.find? p = some a →
      ∃ pre post, l = pre ++ a :: post ∧ ∀ x ∈ pre, p x = false := by
  intro l
  induction l with
  | nil => intro a h; simp at h
  | cons b t ih =>
    intro a h
    by_cases hb : p b
    · rw [List.find?_cons_of_pos _ hb] at h
      refine ⟨[], t, ?_, ?_⟩
      · have hab : a = b := by simpa using h.symm
        simp [hab]
      · intro x hx; simp at hx
    · rw [List.find?_cons_of_neg _ (by simpa using hb)] at h
      obtain ⟨pre, post, hsplit, hpre⟩ := ih a h
      refine ⟨b :: pre, post, by simp [hsplit], ?_⟩
      intro x hx
      rcases List.mem_cons.mp hx with hx | hx
      · simpa [hx] using hb
      · exact hpre x hx

/-- C2: false as stated. The check does not accept whenever some row matches
the trimmed credentials: on `credTableCex` a matching, non-deleted row exists
(row "Ann"), yet the login is rejected, because the scan stops at the first
matching row ("Bob"), which is flagged `Deleted`. -/
theorem C2_counterexample :
    (∃ row ∈ Login.credTableCex.drop 1,
        Login.credMatch "u1" "p1" row = true ∧ jsTrim (Login.col row 5) ≠ "Deleted") ∧
    Login.loginSucceeds (Login.loginCheck Login.credTableCex "u1" "p1") = false := by
  decide

/-- C2 (amended): the credential check accepts exactly when the first row whose
trimmed username and password columns equal the trimmed inputs exists and its
deletion-flag column (trimmed) is not the sentinel `"Deleted"`; that first row
is a genuine match and every row before it fails the match, so a deleted
first match blocks the login even when a later non-deleted row matches. -/
theorem C2_amended :
    ∀ (data : List (List String)) (username password : String),
      (Login.loginSucceeds (Login.loginCheck data username password) = true ↔
        ∃ row, Login.findCredRow (data.drop 1) username password = some row ∧
          jsTrim (Login.col row 5) ≠ "Deleted") ∧
      (∀ row, Login.findCredRow (data.drop 1) username password = some row →
        Login.credMatch username password row = true ∧
        ∃ pre post, data.drop 1 = pre ++ row :: post ∧
          ∀ r ∈ pre, Login.credMatch username password r = false) := by
  intro data username password
  constructor
  · rw [Login.loginCheck]
    cases hfind : Login.findCredRow (data.drop 1) username password with
    | none => simp [Login.loginSucceeds]
    | some row =>
      by_cases hdel : jsTrim (Login.col row 5) = "Deleted"
      · simp [hdel, Login.loginSucceeds]
      · simp [hdel, Login.loginSucceeds]
  · intro row hrow
    exact ⟨List.find?_some hrow, find?_decomp _ _ _ hrow⟩

/-- Witness for `C2_amended` at the concrete table `credTableCex`: the first
matching row is the "Bob" row and no earlier row matches. -/
theorem C2_amended_witness :
    Login.credMatch "u1" "p1" ["Bob", "u1", "p1", "user", "", "Deleted"] = true ∧
    ∃ pre post,
      Login.credTableCex.drop 1 = pre ++ ["Bob", "u1", "p1", "user", "", "Deleted"] :: post ∧
        ∀ r ∈ pre, Login.credMatch "u1" "p1" r = false :=
  (C2_amended Login.credTableCex "u1" "p1").2
    ["Bob", "u1", "p1", "user", "", "Deleted"] (by decide)

/-- C7: for every successful login, the authenticated user's role is the
lowercased role column (defaulting to "user" when the column is empty), an
admin role yields the fixed 7-item permission set regardless of the stored
permission column, and any other role yields the comma-split, trimmed,
empty-filtered permission column. -/
theorem C7_admin_permissions :
    ∀ (data : List (List String)) (username password : String) (user : Login.AuthUser),
      Login.loginCheck data username password = Login.LoginOutcome.success user →
      ∃ row, Login.findCredRow (data.drop 1) username password = some row ∧
        jsTrim (Login.col row 5) ≠ "Deleted" ∧
        user.role = jsToLower (jsOr (Login.col row 3) "user") ∧
        (user.role = "admin" → user.permissions = Login.adminPermissions) ∧
        (user.role ≠ "admin" → user.permissions = Login.splitTrimFilter (Login.col row 4)) := by
  intro data username password user h
  rw [Login.loginCheck] at h
  split at h
  · exact absurd h (by simp)
  · rename_i row hrow
    split at h
    · exact absurd h (by simp)
    · rename_i hdel
      have huser := (Login.LoginOutcome.success.injEq _ _).mp h
      subst huser
      refine ⟨row, hrow, hdel, rfl, ?_, ?_⟩
      · intro hrole
        simp only [Login.permissionsOf]
        rw [if_pos hrole]
      · intro hrole
        simp only [Login.permissionsOf]
        rw [if_neg hrole]

/-- A credentials table with a single admin row whose permission column holds
junk that the fixed admin permission set must override. -/
def adminTableW : List (List String) :=
  [["Name", "Username", "Password", "Role", "Permission", "Status"],
   ["Al", "u2", "p2", "Admin", "ShouldBeIgnored,Whatever", ""]]

/-- Witness for `C7_admin_permissions`: logging in against `adminTableW`
succeeds with role "admin" and the fixed permission set. -/
theorem C7_admin_permissions_witness :
    ∃ row, Login.findCredRow (adminTableW.drop 1) "u2" "p2" = some row ∧
      jsTrim (Login.col row 5) ≠ "Deleted" ∧
      "admin" = jsToLower (jsOr (Login.col row 3) "user") ∧
      ("admin" = "admin" → Login.adminPermissions = Login.adminPermissions) ∧
      ("admin" ≠ "admin" → Login.adminPermissions = Login.splitTrimFilter (Login.col row 4)) :=
  C7_admin_permissions adminTableW "u2" "p2"
    { id := "u2", name := "Al", role := "admin", permissions := Login.adminPermissions }
    (by decide)

namespace AddDocument

/-- A browser `File` object as far as `AddDocument` observes it. -/
structure FileData where
  name : String
  size : Nat
  mimeType : String
  dataUrl : String
deriving DecidableEq

/-- One form row of the `AddDocument` modal (`DocumentEntry` in the source).
`file`/`fileContent` are `Option` because the source uses `null`/`undefined`. -/
structure DocumentEntry where
  id : String
  documentName : String
  documentType : String
  category : String
  name : String
  companyName : String
  needsRenewal : Bool
  renewalDate : String
  file : Option FileData
  fileName : String
  fileContent : Option String
  issueDate : String
  concernPersonName : String
  concernPersonMobile : String
  concernPersonDepartment : String
deriving DecidableEq

/-- The blank entry used by the initial `useState` and by the post-submit
reset (all fields empty, no file, renewal off). -/
def blankEntry (id : String) : DocumentEntry :=
  { id := id, documentName := "", documentType := "", category := "", name := ""
    companyName := "", needsRenewal := false, renewalDate := "", file := none
    fileName := "", fileContent := none, issueDate := "", concernPersonName := ""
    concernPersonMobile := "", concernPersonDepartment := "" }

/-- The initial `entries` state: a single blank entry. -/
def initialEntries (id : String) : List DocumentEntry := [blankEntry id]

/-- `addEntry`: rejected at 10 or more entries; otherwise appends a new entry
copying every field of the last entry except the document name and the file
fields, which start blank (`fileContent` is omitted by the source literal). -/
def addEntry (entries : List DocumentEntry) (newId : String) : List DocumentEntry :=
  if 10 ≤ entries.length then entries
  else
    let lastEntry := entries.getLastD (blankEntry "")
    entries ++
      [{ id := newId, documentName := ""
         documentType := lastEntry.documentType, category := lastEntry.category
         name := lastEntry.name, companyName := lastEntry.companyName
         needsRenewal := lastEntry.needsRenewal, renewalDate := lastEntry.renewalDate
         file := none, fileName := "", fileContent := none
         issueDate := lastEntry.issueDate
         concernPersonName := lastEntry.concernPersonName
         concernPersonMobile := lastEntry.concernPersonMobile
         concernPersonDepartment := lastEntry.concernPersonDepartment }]

/-- `removeEntry`: refused when only one entry remains, otherwise filters out
the rows carrying the given id. -/
def removeEntry (entries : List DocumentEntry) (id : String) : List DocumentEntry :=
  if entries.length = 1 then entries
  else entries.filter (fun item => item.id != id)

/-- The 50 MiB limit of `handleFileChange`. -/
def fileSizeLimit : Nat := 50 * 1024 * 1024

/-- The update applied to the matching row once the `FileReader` finishes. -/
def attachFile (f : FileData) (item : DocumentEntry) : DocumentEntry :=
  { item with file := some f, fileName := f.name, fileContent := some f.dataUrl }

/-- `handleFileChange`: a file above the size limit is rejected with no state
change; otherwise the rows whose id matches get the file attached. -/
def handleFileChange (entries : List DocumentEntry) (id : String) (f : FileData) :
    List DocumentEntry :=
  if fileSizeLimit < f.size then entries
  else entries.map (fun item => if item.id = id then attachFile f item else item)

end AddDocument

namespace AddDocument

/-- C8: `addEntry` never grows the list beyond 10 entries, and on a list that
already holds 10 entries it is rejected with no state change. -/
theorem C8_max_ten_entries :
    ∀ (entries : List DocumentEntry) (newId : String),
      (addEntry entries newId).length ≤ max entries.length 10 ∧
      (entries.length = 10 → addEntry entries newId = entries) := by
  intro entries newId
  by_cases h : 10 ≤ entries.length
  · rw [addEntry, if_pos h]
    exact ⟨Nat.le_max_left _ _, fun _ => rfl⟩
  · rw [addEntry, if_neg h]
    constructor
    · simp only [List.length_append, List.length_cons, List.length_nil]
      omega
    · intro h10
      omega

/-- Witness for `C8_max_ten_entries`: a concrete 10-entry list is unchanged. -/
theorem C8_max_ten_entries_witness :
    addEntry (List.replicate 10 (blankEntry "e")) "z" = List.replicate 10 (blankEntry "e") :=
  (C8_max_ten_entries (List.replicate 10 (blankEntry "e")) "z").2 (by decide)

/-- C10: an oversized file (strictly more than 50 MiB) is rejected with every
entry unchanged; a file within the limit is attached exactly to the rows
carrying the given id, setting only the file fields of those rows. -/
theorem C10_file_size_limit :
    ∀ (entries : List DocumentEntry) (id : String) (f : FileData),
      (fileSizeLimit < f.size → handleFileChange entries id f = entries) ∧
      (f.size ≤ fileSizeLimit →
        (handleFileChange entries id f).length = entries.length ∧
        (∀ i e, entries.get? i = some e → e.id ≠ id →
          (handleFileChange entries id f).get? i = some e) ∧
        (∀ i e, entries.get? i = some e → e.id = id →
          (handleFileChange entries id f).get? i = some (attachFile f e) ∧
          (attachFile f e).file = some f ∧ (attachFile f e).fileName = f.name ∧
          (attachFile f e).fileContent = some f.dataUrl ∧
          (attachFile f e).id = e.id ∧
          (attachFile f e).documentName = e.documentName)) := by
  intro entries id f
  constructor
  · intro h
    rw [handleFileChange, if_pos h]
  · intro h
    rw [handleFileChange, if_neg (by omega)]
    refine ⟨List.length_map _ _, ?_, ?_⟩
    · intro i e he hne
      rw [List.get?_map, he]
      simp [hne]
    · intro i e he hid
      refine ⟨?_, rfl, rfl, rfl, rfl, rfl⟩
      rw [List.get?_map, he]
      simp [hid]

/-- A small in-limit file used by witnesses. -/
def okFile : FileData :=
  { name := "ok.pdf", size := 1024, mimeType := "application/pdf", dataUrl := "data:ok" }

/-- Witness for `C10_file_size_limit`: attaching `okFile` to the second of two
entries updates exactly that entry. -/
theorem C10_file_size_limit_witness :
    (handleFileChange [blankEntry "a", blankEntry "b"] "b" okFile).get? 0 =
      some (blankEntry "a") ∧
    (handleFileChange [blankEntry "a", blankEntry "b"] "b" okFile).get? 1 =
      some (attachFile okFile (blankEntry "b")) := by
  have h := C10_file_size_limit [blankEntry "a", blankEntry "b"] "b" okFile
  refine ⟨?_, ?_⟩
  · exact (h.2 (by decide)).2.1 0 (blankEntry "a") (by decide) (by decide)
  · exact ((h.2 (by decide)).2.2 1 (blankEntry "b") (by decide) (by decide)).1

end AddDocument

namespace AddDocument

/-- The guard of the upload branch in `handleSubmit`:
`entry.file && entry.fileContent && folderId` under JS truthiness. -/
def wantsUpload (folderId : String) (e : DocumentEntry) : Bool :=
  e.file.isSome && optTruthy e.fileContent && !(folderId == "")

/-- An observable step of the upload loop: the fixed `setTimeout` delay or the
upload request issued for the entry at the given loop index. -/
inductive UploadEvent where
  | delay
  | upload (i : Nat)
deriving DecidableEq

/-- The sequence of delay/upload events produced by the upload loop starting
at loop index `i`: each uploading entry is preceded by a delay unless its
index is 0 (`if (i > 0) await ...`). -/
def uploadTraceAux (folderId : String) : List DocumentEntry → Nat → List UploadEvent
  | [], _ => []
  | e :: rest, i =>
    (if wantsUpload folderId e then
      (if 0 < i then [UploadEvent.delay] else []) ++ [UploadEvent.upload i]
    else []) ++ uploadTraceAux folderId rest (i + 1)

/-- The full delay/upload event trace of the upload phase. -/
def uploadTrace (entries : List DocumentEntry) (folderId : String) : List UploadEvent :=
  uploadTraceAux folderId entries 0

/-- The loop indices of the entries that issue an upload request. -/
def uploadIndicesAux (folderId : String) : List DocumentEntry → Nat → List Nat
  | [], _ => []
  | e :: rest, i =>
    (if wantsUpload folderId e then [i] else []) ++ uploadIndicesAux folderId rest (i + 1)

/-- The loop indices of all entries that issue an upload request. -/
def uploadIndices (entries : List DocumentEntry) (folderId : String) : List Nat :=
  uploadIndicesAux folderId entries 0

/-- Formalised from the spec sentence for C6: a delay before every upload
except the first upload issued in the batch (tail uploads each preceded by
one delay). -/
def specDelayedUploads : List Nat → List UploadEvent
  | [] => []
  | j :: rest => UploadEvent.delay :: UploadEvent.upload j :: specDelayedUploads rest

/-- Formalised from the spec sentence for C6: the event trace the claim
describes — no delay before the first upload issued, one delay before each
subsequent upload. -/
def specClaimedTrace : List Nat → List UploadEvent
  | [] => []
  | i :: rest => UploadEvent.upload i :: specDelayedUploads rest

/-- `uploadResults` of the upload phase: one slot per entry, `some url` when
the entry uploaded and the request returned a (truthy) file URL, `none` when
the entry had no file to upload or the request failed / returned no URL.
`uploadedUrl i` is the oracle for the remote call issued at loop index `i`. -/
def uploadResultsAux (folderId : String) (uploadedUrl : Nat → Option String) :
    List DocumentEntry → Nat → List (Option String)
  | [], _ => []
  | e :: rest, i =>
    (if wantsUpload folderId e then uploadedUrl i else none) ::
      uploadResultsAux folderId uploadedUrl rest (i + 1)

/-- The per-index file-URL results collected by the upload phase. -/
def uploadResults (entries : List DocumentEntry) (folderId : String)
    (uploadedUrl : Nat → Option String) : List (Option String) :=
  uploadResultsAux folderId uploadedUrl entries 0

/-- An entry carrying an attached file, used by concrete inputs. -/
def entryWithFile (id docName : String) : DocumentEntry :=
  { blankEntry id with
      documentName := docName
      file := some okFile
      fileName := okFile.name
      fileContent := some okFile.dataUrl }

end AddDocument

namespace AddDocument

/-- Position lemma for the upload trace starting at loop index `start`: an
upload event for entry index `j` satisfies `start ≤ j`; the upload for entry
index 0 can only be the very first event; the upload for any entry index
`j > 0` sits right after a delay event. -/
theorem uploadTraceAux_upload_pos :
    ∀ (es : List DocumentEntry) (folderId : String) (start k j : Nat),
      (uploadTraceAux folderId es start).get? k = some (UploadEvent.upload j) →
        start ≤ j ∧ (j = 0 → k = 0) ∧
        (0 < j → 0 < k ∧
          (uploadTraceAux folderId es start).get? (k - 1) = some UploadEvent.delay) := by
  intro es
  induction es with
  | nil =>
    intro folderId start k j h
    simp [uploadTraceAux] at h
  | cons e rest ih =>
    intro folderId start k j h
    by_cases hw : wantsUpload folderId e
    · cases start with
      | zero =>
        simp only [uploadTraceAux, hw, if_true, Nat.lt_irrefl, if_false,
          List.nil_append, List.cons_append] at h ⊢
        cases k with
        | zero =>
          simp only [List.get?_cons_zero, Option.some.injEq, UploadEvent.upload.injEq] at h
          subst h
          exact ⟨Nat.le_refl 0, fun _ => rfl, fun hj => absurd hj (by omega)⟩
        | succ k1 =>
          simp only [List.get?_cons_succ] at h
          have hrec := ih folderId 1 k1 j h
          have hj1 : 1 ≤ j := hrec.1
          refine ⟨Nat.zero_le _, fun hj0 => by omega, fun _ => ?_⟩
          obtain ⟨hk1, hdel⟩ := hrec.2.2 (by omega)
          refine ⟨Nat.succ_pos _, ?_⟩
          have hk1e : k1 = (k1 - 1) + 1 := by omega
          rw [Nat.succ_sub_one, hk1e, List.get?_cons_succ]
          exact hdel
      | succ s =>
        simp only [uploadTraceAux, hw, if_true, Nat.succ_pos, if_pos,
          List.cons_append, List.nil_append] at h ⊢
        match k, h with
        | 0, h => simp at h
        | 1, h =>
          simp only [List.get?_cons_succ, List.get?_cons_zero, Option.some.injEq,
            UploadEvent.upload.injEq] at h
          subst h
          exact ⟨Nat.le_refl _, fun hj0 => by omega, fun _ => ⟨by omega, rfl⟩⟩
        | (k1 + 2), h =>
          simp only [List.get?_cons_succ] at h
          have hrec := ih folderId (s + 2) k1 j h
          have hj1 : s + 2 ≤ j := hrec.1
          refine ⟨by omega, fun hj0 => by omega, fun _ => ?_⟩
          obtain ⟨hk1, hdel⟩ := hrec.2.2 (by omega)
          refine ⟨by omega, ?_⟩
          have hk1e : k1 = (k1 - 1) + 1 := by omega
          have : k1 + 2 - 1 = (k1 - 1) + 1 + 1 := by omega
          rw [this, List.get?_cons_succ, List.get?_cons_succ]
          exact hdel
    · simp only [uploadTraceAux, hw, if_false, List.nil_append] at h ⊢
      have hrec := ih folderId (start + 1) k j h
      exact ⟨by omega, hrec.2.1, hrec.2.2⟩

/-- Two entries, the first without a file: its uploading neighbour at index 1
is the first upload issued, yet a delay precedes it. -/
def entriesC6 : List DocumentEntry := [blankEntry "a", entryWithFile "b" "Doc"]

/-- C6: false as stated. On a batch whose first entry has no attached file,
the actual event trace is a delay followed by the upload for entry 1, while
the claimed pattern (no delay before the first upload issued) would start
directly with that upload. -/
theorem C6_counterexample :
    uploadTrace entriesC6 "folder1" ≠
      specClaimedTrace (uploadIndices entriesC6 "folder1") ∧
    uploadTrace entriesC6 "folder1" = [UploadEvent.delay, UploadEvent.upload 1] := by
  decide

/-- C6 (amended): the upload loop skips the delay based on the entry's loop
index, not on whether an upload was already issued — an upload for the entry
at index 0 is the very first event (no delay before it), and an upload for an
entry at any index `i > 0` is immediately preceded by a delay event, even
when it is the first upload issued in the batch. -/
theorem C6_amended :
    ∀ (entries : List DocumentEntry) (folderId : String) (k i : Nat),
      (uploadTrace entries folderId).get? k = some (UploadEvent.upload i) →
        (i = 0 → k = 0) ∧
        (0 < i → 0 < k ∧
          (uploadTrace entries folderId).get? (k - 1) = some UploadEvent.delay) := by
  intro entries folderId k i h
  have hrec := uploadTraceAux_upload_pos entries folderId 0 k i h
  exact ⟨hrec.2.1, hrec.2.2⟩

/-- Two entries that both upload, used by the C6 witness. -/
def entriesC6w : List DocumentEntry := [entryWithFile "a" "D1", entryWithFile "b" "D2"]

/-- Witness for `C6_amended`: in a batch of two uploading entries the second
upload sits at trace position 2, right after a delay. -/
theorem C6_amended_witness :
    (1 = 0 → 2 = 0) ∧
    (0 < 1 → 0 < 2 ∧
      (uploadTrace entriesC6w "folder1").get? (2 - 1) = some UploadEvent.delay) :=
  C6_amended entriesC6w "folder1" 2 1 (by decide)

end AddDocument

namespace AddDocument

/-- One master-data picklist entry (`MasterData` in the store). -/
structure MasterDataEntry where
  id : String
  companyName : String
  documentType : String
  category : String
deriving DecidableEq

/-- One share-history record (`ShareHistory` in the store). -/
structure ShareRecord where
  id : String
  shareNo : String
  dateTime : String
  docSerial : String
  docName : String
  docFile : String
  sharedVia : String
  recipientName : String
  contactInfo : String
deriving DecidableEq

/-- One saved document (`DocumentItem` in the store). -/
structure DocumentItem where
  id : String
  sn : String
  documentName : String
  companyName : String
  pName : String
  documentType : String
  category : String
  needsRenewal : Bool
  renewalDate : Option String
  file : Option String
  fileContent : Option String
  date : String
  status : String
  issueDate : String
  concernPersonName : String
  concernPersonMobile : String
  concernPersonDepartment : String
  companyBranch : String
deriving DecidableEq

/-- Modelled from the spec: the local in-memory data store (`useDataStore`,
whose module is not part of the reviewed sources). Per the spec it is a cache
of documents, master picklists and share history, and the mutators
`addDocuments` / `addMasterData` / `addShareHistory` append to it. -/
structure DataStore where
  documents : List DocumentItem
  masterData : List MasterDataEntry
  shareHistory : List ShareRecord
deriving DecidableEq

/-- The fixed-position field array posted by the `insert` action (reserved
columns J/K/L carry `null` and are not modelled). -/
structure InsertPayload where
  timestamp : String
  serialNo : String
  documentName : String
  documentType : String
  category : String
  name : String
  needRenewal : String
  renewalDate : String
  image : String
  issueDate : String
  concernPersonName : String
  concernPersonMobile : String
  concernPersonDepartment : String
  companyName : String
deriving DecidableEq

/-- Remote answer to one `insert` call: the request throws, or succeeds with
an optional (truthy) `serialNo` field. -/
inductive InsertReply where
  | failure
  | ok (serialNo : Option String)
deriving DecidableEq

/-- The serial number carried by a reply, if any. -/
def replySN : InsertReply → Option String
  | InsertReply.failure => none
  | InsertReply.ok sn => sn

/-- The case-insensitive (companyName, documentType, category) comparison of
the master-data dedup check, matched against an entry's name/type/category. -/
def masterTripleMatches (e : DocumentEntry) (m : MasterDataEntry) : Bool :=
  (jsToLower m.companyName == jsToLower e.name) &&
  (jsToLower m.documentType == jsToLower e.documentType) &&
  (jsToLower m.category == jsToLower e.category)

/-- Case-insensitive equality of two master-data triples. -/
def tripleEqB (a b : MasterDataEntry) : Bool :=
  (jsToLower a.companyName == jsToLower b.companyName) &&
  (jsToLower a.documentType == jsToLower b.documentType) &&
  (jsToLower a.category == jsToLower b.category)

/-- The master-data rows appended for one entry: one new row when name, type
and category are all present and no row of the `masterData` snapshot matches
the triple case-insensitively, none otherwise. `genMid i` models the
`Math.random` id of the row created at loop index `i`. -/
def newMasterFor (snapshot : List MasterDataEntry) (genMid : Nat → String)
    (i : Nat) (e : DocumentEntry) : List MasterDataEntry :=
  if (!(e.name == "") && !(e.documentType == "") && !(e.category == "")) &&
      !(snapshot.any (masterTripleMatches e)) then
    [{ id := genMid i, companyName := e.name, documentType := e.documentType
       category := e.category }]
  else []

/-- The file URL resolved for loop index `i`:
`uploadResults.find(r => r.index === index)?.fileUrl || ""`. -/
def resolvedUrl (uploads : List (Option String)) (i : Nat) : String :=
  ((uploads.get? i).getD none).getD ""

/-- The `sheetData` payload built for one entry (timestamp and clock fields
are parameters since they come from `new Date()`). -/
def mkPayload (nowTs hm : String) (e : DocumentEntry) (fileUrl : String) : InsertPayload :=
  { timestamp := nowTs
    serialNo := ""
    documentName := e.documentName
    documentType := e.documentType
    category := e.category
    name := e.name
    needRenewal := if e.needsRenewal then "Yes" else "No"
    renewalDate := if e.renewalDate == "" then "" else e.renewalDate ++ " " ++ hm
    image := fileUrl
    issueDate := e.issueDate
    concernPersonName := e.concernPersonName
    concernPersonMobile := e.concernPersonMobile
    concernPersonDepartment := e.concernPersonDepartment
    companyName := e.companyName }

/-- The local `DocumentItem` pushed for one successfully inserted entry. -/
def mkDocItem (genDid : Nat → String) (today : String) (i : Nat) (e : DocumentEntry)
    (fileUrl : String) (snOpt : Option String) : DocumentItem :=
  { id := genDid i
    sn := jsOr (snOpt.getD "") "Pending"
    documentName := e.documentName
    companyName := e.name
    pName := e.name
    documentType := e.documentType
    category := e.category
    needsRenewal := e.needsRenewal
    renewalDate := if e.needsRenewal then some e.renewalDate else none
    file := if e.fileName == "" then none else some e.fileName
    fileContent := if fileUrl == "" then none else some fileUrl
    date := today
    status := "Active"
    issueDate := e.issueDate
    concernPersonName := e.concernPersonName
    concernPersonMobile := e.concernPersonMobile
    concernPersonDepartment := e.concernPersonDepartment
    companyBranch := e.companyName }

/-- Everything the insert loop produced before returning or throwing. -/
structure InsertPhaseResult where
  attempted : List (Nat × InsertPayload)
  committed : List Nat
  newDocuments : List DocumentItem
  masterAdded : List MasterDataEntry
  failedAt : Option Nat
deriving DecidableEq

/-- The environment of one `handleSubmit` run: configuration, remote oracles
and the values drawn from `new Date()` / `Math.random()`. -/
structure SubmitEnv where
  folderId : String
  uploadedUrl : Nat → Option String
  insertReply : Nat → InsertReply
  genMid : Nat → String
  genDid : Nat → String
  nowTs : String
  nowHM : String
  today : String
  resetId : String

/-- The insert loop of `handleSubmit`, from loop index `i`: per entry it
appends master data (dedup checked against the render-time `snapshot` only),
resolves the upload result, posts the insert payload, and on success pushes a
local `DocumentItem`; a failed insert rethrows, ending the loop. -/
def insertPhaseAux (env : SubmitEnv) (snapshot : List MasterDataEntry)
    (uploads : List (Option String)) : List DocumentEntry → Nat → InsertPhaseResult
  | [], _ =>
    { attempted := [], committed := [], newDocuments := [], masterAdded := []
      failedAt := none }
  | e :: rest, i =>
    let masterNew := newMasterFor snapshot env.genMid i e
    let fileUrl := resolvedUrl uploads i
    let payload := mkPayload env.nowTs env.nowHM e fileUrl
    match env.insertReply i with
    | InsertReply.failure =>
      { attempted := [(i, payload)], committed := [], newDocuments := []
        masterAdded := masterNew, failedAt := some i }
    | InsertReply.ok snOpt =>
      let r := insertPhaseAux env snapshot uploads rest (i + 1)
      { attempted := (i, payload) :: r.attempted
        committed := i :: r.committed
        newDocuments := mkDocItem env.genDid env.today i e fileUrl snOpt :: r.newDocuments
        masterAdded := masterNew ++ r.masterAdded
        failedAt := r.failedAt }

/-- The validation loop at the top of `handleSubmit`: document name must be
non-blank, and a renewal date must be present when the renewal flag is set. -/
def validateEntries (entries : List DocumentEntry) : Bool :=
  entries.all (fun e => !(jsTrim e.documentName == "") &&
    !(e.needsRenewal && (e.renewalDate == "")))

/-- How one `handleSubmit` run ended. -/
inductive SubmitOutcome where
  | validationError
  | failed (k : Nat)
  | succeeded
deriving DecidableEq

/-- The observable result of one `handleSubmit` run: the store afterwards, the
form entries afterwards, the outcome, and the remote insert activity. -/
structure SubmitState where
  store : DataStore
  entries : List DocumentEntry
  outcome : SubmitOutcome
  attempted : List (Nat × InsertPayload)
  committed : List Nat
deriving DecidableEq

/-- `AddDocument.handleSubmit`: validate; upload files sequentially collecting
per-index results; run the insert loop (master-data rows reach the store as
they are created); on full success apply `addDocuments` with the collected
documents and reset the form to one blank entry; when an insert throws, the
outer catch fires — the collected documents are discarded, `addDocuments` is
never called, and the form entries stay as they were. -/
def handleSubmit (env : SubmitEnv) (store : DataStore) (entries : List DocumentEntry) :
    SubmitState :=
  if validateEntries entries = false then
    { store := store, entries := entries, outcome := SubmitOutcome.validationError
      attempted := [], committed := [] }
  else
    let uploads := uploadResults entries env.folderId env.uploadedUrl
    let r := insertPhaseAux env store.masterData uploads entries 0
    let storeMid : DataStore := { store with masterData := store.masterData ++ r.masterAdded }
    match r.failedAt with
    | some k =>
      { store := storeMid, entries := entries, outcome := SubmitOutcome.failed k
        attempted := r.attempted, committed := r.committed }
    | none =>
      { store := { storeMid with documents := storeMid.documents ++ r.newDocuments }
        entries := [blankEntry env.resetId], outcome := SubmitOutcome.succeeded
        attempted := r.attempted, committed := r.committed }

end AddDocument

namespace AddDocument

/-- The upload-result slot of index `j` only depends on entry `j` and on the
oracle value for loop index `start + j`. -/
theorem uploadResultsAux_get :
    ∀ (es : List DocumentEntry) (folderId : String) (up : Nat → Option String)
      (start j : Nat),
      (uploadResultsAux folderId up es start).get? j =
        (es.get? j).map (fun e => if wantsUpload folderId e then up (start + j) else none) := by
  intro es
  induction es with
  | nil => intro folderId up start j; simp [uploadResultsAux]
  | cons e rest ih =>
    intro folderId up start j
    cases j with
    | zero => simp [uploadResultsAux]
    | succ j1 =>
      simp only [uploadResultsAux, List.get?_cons_succ]
      rw [ih folderId up (start + 1) j1]
      have harg : start + 1 + j1 = start + (j1 + 1) := by omega
      rw [harg]

/-- The master-data rows the insert loop would append, computed directly from
the pre-submit snapshot (the loop never consults its own additions). -/
def masterAdditions (snapshot : List MasterDataEntry) (genMid : Nat → String) :
    List DocumentEntry → Nat → List MasterDataEntry
  | [], _ => []
  | e :: rest, i =>
    newMasterFor snapshot genMid i e ++ masterAdditions snapshot genMid rest (i + 1)

/-- Characterisation of the insert loop when no insert call fails: every entry
is attempted in order, committed, and turned into a local document, with all
per-index data determined by the entry, the upload results and the oracles. -/
theorem insertPhaseAux_ok :
    ∀ (es : List DocumentEntry) (env : SubmitEnv) (snapshot : List MasterDataEntry)
      (uploads : List (Option String)) (start : Nat),
      (∀ i, env.insertReply i ≠ InsertReply.failure) →
      (insertPhaseAux env snapshot uploads es start).failedAt = none ∧
      (insertPhaseAux env snapshot uploads es start).attempted.map Prod.fst =
        List.range' start es.length ∧
      (insertPhaseAux env snapshot uploads es start).committed = List.range' start es.length ∧
      (insertPhaseAux env snapshot uploads es start).masterAdded =
        masterAdditions snapshot env.genMid es start ∧
      (∀ j, (insertPhaseAux env snapshot uploads es start).attempted.get? j =
        (es.get? j).map (fun e =>
          (start + j, mkPayload env.nowTs env.nowHM e (resolvedUrl uploads (start + j))))) ∧
      (∀ j, (insertPhaseAux env snapshot uploads es start).newDocuments.get? j =
        (es.get? j).map (fun e => mkDocItem env.genDid env.today (start + j) e
          (resolvedUrl uploads (start + j)) (replySN (env.insertReply (start + j))))) := by
  intro es
  induction es with
  | nil =>
    intro env snapshot uploads start hok
    refine ⟨rfl, by simp [insertPhaseAux, List.range'], rfl, rfl, ?_, ?_⟩ <;>
      intro j <;> simp [insertPhaseAux]
  | cons e rest ih =>
    intro env snapshot uploads start hok
    cases hrep : env.insertReply start with
    | failure => exact absurd hrep (hok start)
    | ok snOpt =>
      have hrec := ih env snapshot uploads (start + 1) hok
      simp only [insertPhaseAux, hrep]
      refine ⟨hrec.1, ?_, ?_, ?_, ?_, ?_⟩
      · simp only [List.length_cons, List.range', List.map_cons]
        rw [hrec.2.1]
      · simp only [List.length_cons, List.range']
        rw [hrec.2.2.1]
      · simp only [masterAdditions]
        rw [hrec.2.2.2.1]
      · intro j
        cases j with
        | zero => simp
        | succ j1 =>
          simp only [List.get?_cons_succ]
          rw [hrec.2.2.2.2.1 j1]
          have harg : start + 1 + j1 = start + (j1 + 1) := by omega
          rw [harg]
      · intro j
        cases j with
        | zero => simp [hrep, replySN]
        | succ j1 =>
          simp only [List.get?_cons_succ]
          rw [hrec.2.2.2.2.2 j1]
          have harg : start + 1 + j1 = start + (j1 + 1) := by omega
          rw [harg]

/-- Characterisation of the insert loop when it fails at index `k`: exactly
the indices up to `k` were attempted, exactly those before `k` were committed
remotely, the failing call is `k`, and no local document survives. -/
theorem insertPhaseAux_failed :
    ∀ (es : List DocumentEntry) (env : SubmitEnv) (snapshot : List MasterDataEntry)
      (uploads : List (Option String)) (start k : Nat),
      (insertPhaseAux env snapshot uploads es start).failedAt = some k →
        start ≤ k ∧
        (insertPhaseAux env snapshot uploads es start).attempted.map Prod.fst =
          List.range' start (k + 1 - start) ∧
        (insertPhaseAux env snapshot uploads es start).committed =
          List.range' start (k - start) ∧
        env.insertReply k = InsertReply.failure := by
  intro es
  induction es with
  | nil =>
    intro env snapshot uploads start k h
    simp [insertPhaseAux] at h
  | cons e rest ih =>
    intro env snapshot uploads start k h
    cases hrep : env.insertReply start with
    | failure =>
      simp only [insertPhaseAux, hrep] at h ⊢
      have hk : start = k := by simpa using h
      subst hk
      refine ⟨Nat.le_refl _, ?_, ?_, hrep⟩
      · simp [List.range']
      · simp [List.range']
    | ok snOpt =>
      simp only [insertPhaseAux, hrep] at h ⊢
      have hrec := ih env snapshot uploads (start + 1) k h
      have hsk : start + 1 ≤ k := hrec.1
      refine ⟨by omega, ?_, ?_, hrec.2.2.2⟩
      · have hn : k + 1 - start = (k + 1 - (start + 1)) + 1 := by omega
        rw [hn]
        simp only [List.range', List.map_cons]
        rw [hrec.2.1]
      · have hn : k - start = (k - (start + 1)) + 1 := by omega
        rw [hn]
        simp only [List.range']
        rw [hrec.2.2.1]

end AddDocument

namespace AddDocument

/-- `handleSubmit` on invalid input: nothing happens. -/
theorem handleSubmit_eq_of_invalid (env : SubmitEnv) (store : DataStore)
    (entries : List DocumentEntry) (hv : validateEntries entries = false) :
    handleSubmit env store entries =
      { store := store, entries := entries, outcome := SubmitOutcome.validationError
        attempted := [], committed := [] } := by
  rw [handleSubmit, if_pos hv]

/-- `handleSubmit` when the insert loop throws at index `k`: the master-data
additions reach the store, `addDocuments` is never called, and the form
entries are kept. -/
theorem handleSubmit_eq_of_failed (env : SubmitEnv) (store : DataStore)
    (entries : List DocumentEntry) (k : Nat) (hv : validateEntries entries = true)
    (hf : (insertPhaseAux env store.masterData
        (uploadResults entries env.folderId env.uploadedUrl) entries 0).failedAt = some k) :
    handleSubmit env store entries =
      { store := { store with masterData := store.masterData ++
          (insertPhaseAux env store.masterData
            (uploadResults entries env.folderId env.uploadedUrl) entries 0).masterAdded }
        entries := entries
        outcome := SubmitOutcome.failed k
        attempted := (insertPhaseAux env store.masterData
          (uploadResults entries env.folderId env.uploadedUrl) entries 0).attempted
        committed := (insertPhaseAux env store.masterData
          (uploadResults entries env.folderId env.uploadedUrl) entries 0).committed } := by
  rw [handleSubmit, if_neg (by simp [hv])]
  simp only [hf]

/-- `handleSubmit` when every insert succeeds: master-data additions and the
collected documents reach the store and the form resets to one blank entry. -/
theorem handleSubmit_eq_of_ok (env : SubmitEnv) (store : DataStore)
    (entries : List DocumentEntry) (hv : validateEntries entries = true)
    (hf : (insertPhaseAux env store.masterData
        (uploadResults entries env.folderId env.uploadedUrl) entries 0).failedAt = none) :
    handleSubmit env store entries =
      { store :=
          { documents := store.documents ++
              (insertPhaseAux env store.masterData
                (uploadResults entries env.folderId env.uploadedUrl) entries 0).newDocuments
            masterData := store.masterData ++
              (insertPhaseAux env store.masterData
                (uploadResults entries env.folderId env.uploadedUrl) entries 0).masterAdded
            shareHistory := store.shareHistory }
        entries := [blankEntry env.resetId]
        outcome := SubmitOutcome.succeeded
        attempted := (insertPhaseAux env store.masterData
          (uploadResults entries env.folderId env.uploadedUrl) entries 0).attempted
        committed := (insertPhaseAux env store.masterData
          (uploadResults entries env.folderId env.uploadedUrl) entries 0).committed } := by
  rw [handleSubmit, if_neg (by simp [hv])]
  simp only [hf]

end AddDocument

namespace AddDocument

/-- An entry that passes validation (document name filled, renewal off). -/
def validEntry (id docName : String) : DocumentEntry :=
  { blankEntry id with documentName := docName }

/-- The empty initial store. -/
def store0 : DataStore := { documents := [], masterData := [], shareHistory := [] }

/-- Environment whose insert oracle succeeds at index 0 and throws at every
later index. -/
def envC1 : SubmitEnv :=
  { folderId := "", uploadedUrl := fun _ => none
    insertReply := fun i => if i = 0 then InsertReply.ok (some "SN-7") else InsertReply.failure
    genMid := fun i => "m" ++ toString i
    genDid := fun i => "d" ++ toString i
    nowTs := "2026-01-01 00:00:00", nowHM := "00:00", today := "2026-01-01"
    resetId := "reset" }

/-- A two-entry batch for the C1 counterexample. -/
def entriesC1 : List DocumentEntry := [validEntry "a" "DocA", validEntry "b" "DocB"]

/-- C1: false as stated. With two valid entries and the insert for entry 1
failing, entry 0 was indeed committed remotely (`committed = [0]`) and no
index beyond 1 was attempted, but entry 0 does NOT appear in the local
document store: `addDocuments` only runs after the whole loop, so the catch
discards all collected documents and the store keeps zero documents. -/
theorem C1_counterexample :
    (handleSubmit envC1 store0 entriesC1).outcome = SubmitOutcome.failed 1 ∧
    (handleSubmit envC1 store0 entriesC1).committed = [0] ∧
    (handleSubmit envC1 store0 entriesC1).attempted.map Prod.fst = [0, 1] ∧
    (handleSubmit envC1 store0 entriesC1).store.documents = [] := by
  decide

/-- C1 (amended): if the insert call for entry K fails, entries 0..K-1 are
committed remotely only — the insert calls attempted are exactly 0..K, the
remote commits are exactly 0..K-1 with no compensating rollback, the failing
call is K, but the local document store is left entirely unchanged (no entry
of the batch appears in it) and the form entries are kept. -/
theorem C1_amended :
    ∀ (env : SubmitEnv) (store : DataStore) (entries : List DocumentEntry) (k : Nat),
      (handleSubmit env store entries).outcome = SubmitOutcome.failed k →
        (handleSubmit env store entries).attempted.map Prod.fst = List.range (k + 1) ∧
        (handleSubmit env store entries).committed = List.range k ∧
        env.insertReply k = InsertReply.failure ∧
        (handleSubmit env store entries).store.documents = store.documents ∧
        (handleSubmit env store entries).entries = entries := by
  intro env store entries k h
  by_cases hv : validateEntries entries = true
  · cases hfail : (insertPhaseAux env store.masterData
        (uploadResults entries env.folderId env.uploadedUrl) entries 0).failedAt with
    | none =>
      rw [handleSubmit_eq_of_ok env store entries hv hfail] at h
      exact absurd h (by simp)
    | some k2 =>
      rw [handleSubmit_eq_of_failed env store entries k2 hv hfail] at h
      have hk : k2 = k := by simpa using h
      subst hk
      rw [handleSubmit_eq_of_failed env store entries k2 hv hfail]
      have hrec := insertPhaseAux_failed entries env store.masterData
        (uploadResults entries env.folderId env.uploadedUrl) 0 k2 hfail
      refine ⟨?_, ?_, hrec.2.2.2, rfl, rfl⟩
      · have hatt := hrec.2.1
        simpa [List.range_eq_range'] using hatt
      · have hcom := hrec.2.2.1
        simpa [List.range_eq_range'] using hcom
  · have hvf : validateEntries entries = false := by
      cases hb : validateEntries entries
      · rfl
      · exact absurd hb hv
    rw [handleSubmit_eq_of_invalid env store entries hvf] at h
    exact absurd h (by simp)

/-- Witness for `C1_amended` on the concrete failing batch `entriesC1`. -/
theorem C1_amended_witness :
    (handleSubmit envC1 store0 entriesC1).attempted.map Prod.fst = List.range (1 + 1) ∧
    (handleSubmit envC1 store0 entriesC1).committed = List.range 1 ∧
    envC1.insertReply 1 = InsertReply.failure ∧
    (handleSubmit envC1 store0 entriesC1).store.documents = store0.documents ∧
    (handleSubmit envC1 store0 entriesC1).entries = entriesC1 :=
  C1_amended envC1 store0 entriesC1 1 (by decide)

end AddDocument

namespace AddDocument

/-- C3: when entry K's file upload fails (the oracle yields no URL for loop
index K), the batch is not aborted — provided no insert call fails, the run
succeeds, every entry is inserted in order, entry K's insert payload carries
the empty string in the file-URL position, entry K's local record lands in
the store with no stored file URL, and the upload results of all other
entries are unaffected by the oracle's value at K. -/
theorem C3_upload_failure_degrades :
    ∀ (env : SubmitEnv) (store : DataStore) (entries : List DocumentEntry)
      (k : Nat) (e : DocumentEntry),
      validateEntries entries = true →
      (∀ i, env.insertReply i ≠ InsertReply.failure) →
      entries.get? k = some e →
      env.uploadedUrl k = none →
        (handleSubmit env store entries).outcome = SubmitOutcome.succeeded ∧
        (handleSubmit env store entries).attempted.map Prod.fst =
          List.range entries.length ∧
        (handleSubmit env store entries).attempted.get? k =
          some (k, mkPayload env.nowTs env.nowHM e "") ∧
        (mkPayload env.nowTs env.nowHM e "").image = "" ∧
        (handleSubmit env store entries).store.documents.get?
            (store.documents.length + k) =
          some (mkDocItem env.genDid env.today k e "" (replySN (env.insertReply k))) ∧
        (mkDocItem env.genDid env.today k e "" (replySN (env.insertReply k))).fileContent
          = none ∧
        (∀ up2 : Nat → Option String, (∀ j, j ≠ k → env.uploadedUrl j = up2 j) →
          ∀ j, j ≠ k →
            (uploadResults entries env.folderId up2).get? j =
              (uploadResults entries env.folderId env.uploadedUrl).get? j) := by
  intro env store entries k e hv hok hk hu
  have hallok := insertPhaseAux_ok entries env store.masterData
    (uploadResults entries env.folderId env.uploadedUrl) 0 hok
  have hurl : resolvedUrl (uploadResults entries env.folderId env.uploadedUrl) k = "" := by
    rw [resolvedUrl, uploadResults, uploadResultsAux_get entries env.folderId env.uploadedUrl 0 k]
    rw [hk]
    simp [hu]
  rw [handleSubmit_eq_of_ok env store entries hv hallok.1]
  refine ⟨rfl, ?_, ?_, rfl, ?_, rfl, ?_⟩
  · have hatt := hallok.2.1
    simpa [List.range_eq_range'] using hatt
  · have hget := hallok.2.2.2.2.1 k
    rw [hk] at hget
    simpa [hurl] using hget
  · have hdoc := hallok.2.2.2.2.2 k
    rw [hk] at hdoc
    show (store.documents ++ (insertPhaseAux env store.masterData
      (uploadResults entries env.folderId env.uploadedUrl) entries 0).newDocuments).get?
        (store.documents.length + k) = _
    rw [List.get?_append_right (by omega)]
    have hidx : store.documents.length + k - store.documents.length = k := by omega
    rw [hidx]
    simpa [hurl] using hdoc
  · intro up2 hagree j hj
    rw [uploadResults, uploadResults, uploadResultsAux_get, uploadResultsAux_get]
    simp only [Nat.zero_add]
    rw [← hagree j hj]

/-- Environment with every upload failing and every insert succeeding. -/
def envC3 : SubmitEnv :=
  { folderId := "folder1", uploadedUrl := fun _ => none
    insertReply := fun _ => InsertReply.ok none
    genMid := fun i => "m" ++ toString i
    genDid := fun i => "d" ++ toString i
    nowTs := "2026-01-01 00:00:00", nowHM := "00:00", today := "2026-01-01"
    resetId := "reset" }

/-- Batch for the C3 witness: entry 0 carries a file whose upload fails. -/
def entriesC3 : List DocumentEntry := [entryWithFile "a" "D1", validEntry "b" "D2"]

/-- Witness for `C3_upload_failure_degrades`: the run still succeeds and the
degraded record stores no file URL. -/
theorem C3_upload_failure_degrades_witness :
    (handleSubmit envC3 store0 entriesC3).outcome = SubmitOutcome.succeeded ∧
    (mkDocItem envC3.genDid envC3.today 0 (entryWithFile "a" "D1") ""
      (replySN (envC3.insertReply 0))).fileContent = none := by
  have h := C3_upload_failure_degrades envC3 store0 entriesC3 0 (entryWithFile "a" "D1")
    (by decide) (fun i hcon => InsertReply.noConfusion hcon) (by decide) rfl
  exact ⟨h.1, h.2.2.2.2.2.1⟩

end AddDocument

namespace AddDocument

/-- Whether some two rows of a master-data list agree on the case-insensitive
(companyName, documentType, category) triple. -/
def hasCaseDupTriple : List MasterDataEntry → Bool
  | [] => false
  | m :: rest => rest.any (tripleEqB m) || hasCaseDupTriple rest

/-- Two valid entries whose (name, type, category) triples agree only up to
case, against an empty master list. -/
def entryDupA : DocumentEntry :=
  { blankEntry "a" with
      documentName := "Doc1"
      name := "Acme"
      documentType := "GST"
      category := "Company" }

/-- Case-variant twin of `entryDupA`. -/
def entryDupB : DocumentEntry :=
  { blankEntry "b" with
      documentName := "Doc2"
      name := "ACME"
      documentType := "gst"
      category := "COMPANY" }

/-- Environment with no uploads and every insert succeeding. -/
def envOkAll : SubmitEnv :=
  { folderId := "", uploadedUrl := fun _ => none
    insertReply := fun _ => InsertReply.ok none
    genMid := fun i => "m" ++ toString i
    genDid := fun i => "d" ++ toString i
    nowTs := "2026-01-01 00:00:00", nowHM := "00:00", today := "2026-01-01"
    resetId := "reset" }

/-- C5: false as stated. Submitting a batch with two entries whose triples
agree case-insensitively (against an empty master list) appends BOTH: the
dedup check reads the render-time `masterData` snapshot, which never sees the
additions made earlier in the same run, so the final master list holds two
rows with the same case-insensitive triple. -/
theorem C5_counterexample :
    hasCaseDupTriple
      (handleSubmit envOkAll store0 [entryDupA, entryDupB]).store.masterData = true ∧
    (handleSubmit envOkAll store0 [entryDupA, entryDupB]).store.masterData.map
      MasterDataEntry.companyName = ["Acme", "ACME"] := by
  decide

/-- C5 (amended): during the insert phase a master-data row is appended for an
entry exactly when its name, type and category are all present and no row of
the PRE-SUBMIT master-data snapshot matches the triple case-insensitively;
the dedup check never consults rows appended earlier in the same batch, so a
batch holding two entries with the same new triple appends both. -/
theorem C5_amended :
    ∀ (env : SubmitEnv) (store : DataStore) (entries : List DocumentEntry),
      validateEntries entries = true →
      (∀ i, env.insertReply i ≠ InsertReply.failure) →
      (handleSubmit env store entries).store.masterData =
        store.masterData ++ masterAdditions store.masterData env.genMid entries 0 ∧
      (∀ i e, store.masterData.any (masterTripleMatches e) = true →
        newMasterFor store.masterData env.genMid i e = []) := by
  intro env store entries hv hok
  have hallok := insertPhaseAux_ok entries env store.masterData
    (uploadResults entries env.folderId env.uploadedUrl) 0 hok
  rw [handleSubmit_eq_of_ok env store entries hv hallok.1]
  refine ⟨?_, ?_⟩
  · show store.masterData ++ _ = _
    rw [hallok.2.2.2.1]
  · intro i e hmatch
    rw [newMasterFor, if_neg (by simp [hmatch])]

/-- Witness for `C5_amended` on the duplicate-triple batch. -/
theorem C5_amended_witness :
    (handleSubmit envOkAll store0 [entryDupA, entryDupB]).store.masterData =
      store0.masterData ++
        masterAdditions store0.masterData envOkAll.genMid [entryDupA, entryDupB] 0 :=
  (C5_amended envOkAll store0 [entryDupA, entryDupB] (by decide)
    (fun i hcon => InsertReply.noConfusion hcon)).1

end AddDocument

namespace AddDocument

/-- Under pairwise-distinct ids, filtering one id out of the entries drops at
most one element. -/
theorem length_le_filter_id_succ :
    ∀ (entries : List DocumentEntry) (id : String),
      (entries.map DocumentEntry.id).Nodup →
      entries.length ≤ (entries.filter (fun e => e.id != id)).length + 1 := by
  intro entries
  induction entries with
  | nil => intro id h; simp
  | cons a t ih =>
    intro id hnd
    simp only [List.map_cons, List.nodup_cons] at hnd
    by_cases ha : a.id = id
    · have hkeep : t.filter (fun e => e.id != id) = t := by
        apply List.filter_eq_self.mpr
        intro e he
        have hne : e.id ≠ id := by
          intro hei
          exact hnd.1 (by rw [ha, ← hei]; exact List.mem_map_of_mem _ he)
        simpa using hne
      simp only [List.filter_cons]
      rw [if_neg (by simp [ha])]
      rw [hkeep]
      simp
    · simp only [List.filter_cons]
      rw [if_pos (by simp [ha])]
      simp only [List.length_cons]
      have := ih id hnd.2
      omega

/-- C9: the form's entry list never becomes empty — the initial state holds
one entry, `addEntry` only ever appends (the old list is a prefix), under
distinct ids `removeEntry` drops at most one element and keeps the list
non-empty, every `handleSubmit` run leaves a non-empty entry list, and a
successful submit resets it to exactly one blank entry. -/
theorem C9_entries_invariant :
    (∀ id, (initialEntries id).length = 1) ∧
    (∀ (entries : List DocumentEntry) (newId : String),
      (addEntry entries newId).take entries.length = entries ∧
      entries.length ≤ (addEntry entries newId).length) ∧
    (∀ (entries : List DocumentEntry) (id : String),
      (entries.map DocumentEntry.id).Nodup →
      entries.length - 1 ≤ (removeEntry entries id).length ∧
      (1 ≤ entries.length → 1 ≤ (removeEntry entries id).length)) ∧
    (∀ (env : SubmitEnv) (store : DataStore) (entries : List DocumentEntry),
      1 ≤ entries.length → 1 ≤ (handleSubmit env store entries).entries.length) ∧
    (∀ (env : SubmitEnv) (store : DataStore) (entries : List DocumentEntry),
      (handleSubmit env store entries).outcome = SubmitOutcome.succeeded →
      (handleSubmit env store entries).entries = [blankEntry env.resetId]) := by
  refine ⟨fun id => rfl, ?_, ?_, ?_, ?_⟩
  · intro entries newId
    simp only [addEntry]
    by_cases h : 10 ≤ entries.length
    · rw [if_pos h]
      exact ⟨List.take_length entries, Nat.le_refl _⟩
    · rw [if_neg h]
      refine ⟨List.take_left entries _, ?_⟩
      simp
  · intro entries id hnd
    rw [removeEntry]
    by_cases h1 : entries.length = 1
    · rw [if_pos h1]
      omega
    · rw [if_neg h1]
      have hf := length_le_filter_id_succ entries id hnd
      omega
  · intro env store entries hlen
    by_cases hv : validateEntries entries = true
    · cases hfail : (insertPhaseAux env store.masterData
          (uploadResults entries env.folderId env.uploadedUrl) entries 0).failedAt with
      | none =>
        rw [handleSubmit_eq_of_ok env store entries hv hfail]
        simp
      | some k =>
        rw [handleSubmit_eq_of_failed env store entries k hv hfail]
        simpa using hlen
    · have hvf : validateEntries entries = false := by
        cases hb : validateEntries entries
        · rfl
        · exact absurd hb hv
      rw [handleSubmit_eq_of_invalid env store entries hvf]
      simpa using hlen
  · intro env store entries h
    by_cases hv : validateEntries entries = true
    · cases hfail : (insertPhaseAux env store.masterData
          (uploadResults entries env.folderId env.uploadedUrl) entries 0).failedAt with
      | none =>
        rw [handleSubmit_eq_of_ok env store entries hv hfail]
      | some k =>
        rw [handleSubmit_eq_of_failed env store entries k hv hfail] at h
        exact absurd h (by simp)
    · have hvf : validateEntries entries = false := by
        cases hb : validateEntries entries
        · rfl
        · exact absurd hb hv
      rw [handleSubmit_eq_of_invalid env store entries hvf] at h
      exact absurd h (by simp)

/-- Witness for `C9_entries_invariant` on concrete lists and a concrete
successful submit. -/
theorem C9_entries_invariant_witness :
    1 ≤ (removeEntry [blankEntry "a", blankEntry "b"] "b").length ∧
    1 ≤ (handleSubmit envOkAll store0 [validEntry "a" "DocA"]).entries.length ∧
    (handleSubmit envOkAll store0 [validEntry "a" "DocA"]).entries =
      [blankEntry envOkAll.resetId] := by
  have h := C9_entries_invariant
  exact ⟨(h.2.2.1 [blankEntry "a", blankEntry "b"] "b" (by decide)).2 (by decide),
    h.2.2.2.1 envOkAll store0 [validEntry "a" "DocA"] (by decide),
    h.2.2.2.2 envOkAll store0 [validEntry "a" "DocA"] (by decide)⟩

end AddDocument

namespace ShareModal

open AddDocument

/-- The `type` prop of the share modal. -/
inductive ShareType where
  | email
  | whatsapp
  | both
deriving DecidableEq, BEq

/-- `String(n).padStart(3, '0')`. -/
def padZeros3 (s : String) : String :=
  if 3 ≤ s.length then s else String.mk (List.replicate (3 - s.length) '0') ++ s

/-- The `SH-xxx` share number built from a sequential counter value. -/
def shareNoFor (n : Nat) : String := "SH-" ++ padZeros3 (toString n)

/-- Ambient values of one share submission (email oracle outcome,
`Date.now()` rendered as a string, the formatted date-time). -/
structure ShareEnv where
  sendSuccess : Bool
  nowMs : String
  dateTime : String

/-- The Email history record pushed for batch document `i`. -/
def emailShareRecord (senv : ShareEnv) (nextId i : Nat) (rn em : String)
    (doc : DocumentItem) : ShareRecord :=
  { id := "share-" ++ senv.nowMs ++ "-" ++ toString i ++ "-email"
    shareNo := shareNoFor (nextId + i)
    dateTime := senv.dateTime
    docSerial := jsOr doc.sn "N/A"
    docName := doc.documentName
    docFile := jsOr (doc.fileContent.getD "") "N/A"
    sharedVia := "Email"
    recipientName := jsOr rn "N/A"
    contactInfo := em }

/-- The WhatsApp history record pushed for batch document `i` (its share
number is offset by the batch size). -/
def waShareRecord (senv : ShareEnv) (nextId mCount i : Nat) (rn wa : String)
    (doc : DocumentItem) : ShareRecord :=
  { id := "share-" ++ senv.nowMs ++ "-" ++ toString i ++ "-whatsapp"
    shareNo := shareNoFor (nextId + i + mCount)
    dateTime := senv.dateTime
    docSerial := jsOr doc.sn "N/A"
    docName := doc.documentName
    docFile := jsOr (doc.fileContent.getD "") "N/A"
    sharedVia := "WhatsApp"
    recipientName := jsOr rn "N/A"
    contactInfo := wa }

/-- The `batchDocuments.forEach` loop of the share handler from index `i`:
per document an Email record (when the email channel is selected) followed by
a WhatsApp record (when the messaging channel is selected). -/
def batchShareRecordsAux (senv : ShareEnv) (emailOn waOn : Bool) (nextId mCount : Nat)
    (rn em wa : String) : List DocumentItem → Nat → List ShareRecord
  | [], _ => []
  | d :: rest, i =>
    (if emailOn then [emailShareRecord senv nextId i rn em d] else []) ++
    (if waOn then [waShareRecord senv nextId mCount i rn wa d] else []) ++
    batchShareRecordsAux senv emailOn waOn nextId mCount rn em wa rest (i + 1)

/-- The single-document history record for a one-channel share. -/
def singleShareRecord (senv : ShareEnv) (suffix : String) (shareN : Nat)
    (via docSerial docName docFile rn contact : String) : ShareRecord :=
  { id := "share-" ++ senv.nowMs ++ suffix
    shareNo := shareNoFor shareN
    dateTime := senv.dateTime
    docSerial := docSerial
    docName := docName
    docFile := docFile
    sharedVia := via
    recipientName := jsOr rn "N/A"
    contactInfo := contact }

/-- `ShareModal.handleSubmit`: attempt the email send when the email channel
is selected (a failed email aborts only a pure-email share); open WhatsApp
when the messaging channel is selected; then append history records — per
batch document one record per selected channel, or one/two records for a
single document — numbering them from the current history length. -/
def shareSubmit (senv : ShareEnv) (history : List ShareRecord) (type : ShareType)
    (isBatch : Bool) (batchDocs : List DocumentItem) (docDetails : Option DocumentItem)
    (documentName : String) (fileContent : Option String) (rn em wa : String) :
    List ShareRecord :=
  let isEmailType : Bool := type == ShareType.email || type == ShareType.both
  let isWaType : Bool := type == ShareType.whatsapp || type == ShareType.both
  let emailSuccess : Bool := isEmailType && senv.sendSuccess
  if isEmailType && !emailSuccess && (type == ShareType.email) then history
  else
    let whatsappOpened : Bool := isWaType
    if emailSuccess || whatsappOpened || (type == ShareType.whatsapp) then
      let nextId := history.length + 1
      if isBatch && !(batchDocs.length == 0) then
        history ++ batchShareRecordsAux senv isEmailType isWaType nextId
          batchDocs.length rn em wa batchDocs 0
      else
        let serial := jsOr ((docDetails.map DocumentItem.sn).getD "") "N/A"
        let fileRef := jsOr (fileContent.getD "") "N/A"
        if type == ShareType.both then
          history ++
            [singleShareRecord senv "-1" nextId "Email" serial documentName fileRef rn em,
             singleShareRecord senv "-2" (nextId + 1) "WhatsApp" serial documentName fileRef rn wa]
        else
          history ++
            [singleShareRecord senv "" nextId
              (if type == ShareType.email then "Email" else "WhatsApp")
              serial documentName fileRef rn
              (if type == ShareType.email then em else wa)]
    else history

/-- With both channels on, each batch document contributes exactly one Email
and one WhatsApp record, in document order. -/
theorem batchShareRecordsAux_both :
    ∀ (docs : List DocumentItem) (senv : ShareEnv) (nextId mCount : Nat)
      (rn em wa : String) (i : Nat),
      (batchShareRecordsAux senv true true nextId mCount rn em wa docs i).length =
        2 * docs.length ∧
      (batchShareRecordsAux senv true true nextId mCount rn em wa docs i).map
          (fun r => (r.sharedVia, r.docName)) =
        (docs.map (fun d => [("Email", d.documentName), ("WhatsApp", d.documentName)])).join := by
  intro docs
  induction docs with
  | nil => intro senv nextId mCount rn em wa i; simp [batchShareRecordsAux]
  | cons d rest ih =>
    intro senv nextId mCount rn em wa i
    have hrec := ih senv nextId mCount rn em wa (i + 1)
    simp only [batchShareRecordsAux, if_true, List.cons_append, List.nil_append,
      List.length_cons, List.map_cons, List.map_join, List.join, List.length_map]
    constructor
    · simp only [List.length_cons, hrec.1, List.length_map]
      omega
    · simp only [List.map_cons, emailShareRecord, waShareRecord, hrec.2]
      simp [List.join]

end ShareModal

namespace ShareModal

open AddDocument

/-- C4: sharing a non-empty batch of M documents with both Email and WhatsApp
selected appends exactly 2×M history records — the old history is kept as a
prefix and the appended block holds, per document in order, one Email record
and one WhatsApp record carrying that document's name. -/
theorem C4_batch_both :
    ∀ (senv : ShareEnv) (history : List ShareRecord) (batchDocs : List DocumentItem)
      (docDetails : Option DocumentItem) (documentName : String)
      (fileContent : Option String) (rn em wa : String),
      batchDocs ≠ [] →
      (shareSubmit senv history ShareType.both true batchDocs docDetails documentName
        fileContent rn em wa).length = history.length + 2 * batchDocs.length ∧
      (shareSubmit senv history ShareType.both true batchDocs docDetails documentName
        fileContent rn em wa).take history.length = history ∧
      ((shareSubmit senv history ShareType.both true batchDocs docDetails documentName
        fileContent rn em wa).drop history.length).map (fun r => (r.sharedVia, r.docName)) =
        (batchDocs.map (fun d =>
          [("Email", d.documentName), ("WhatsApp", d.documentName)])).join := by
  intro senv history batchDocs docDetails documentName fileContent rn em wa hne
  have he : (ShareType.both == ShareType.email) = false := rfl
  have hb : (ShareType.both == ShareType.both) = true := rfl
  have hw : (ShareType.both == ShareType.whatsapp) = false := rfl
  have hlen0 : batchDocs.length ≠ 0 := fun h => hne (List.length_eq_zero.mp h)
  have hlen : (batchDocs.length == 0) = false := by simpa using hlen0
  have hred : shareSubmit senv history ShareType.both true batchDocs docDetails
      documentName fileContent rn em wa =
      history ++ batchShareRecordsAux senv true true (history.length + 1)
        batchDocs.length rn em wa batchDocs 0 := by
    simp only [shareSubmit, he, hb, hw, hlen, Bool.false_or, Bool.or_false, Bool.or_true,
      Bool.true_or, Bool.and_false, Bool.false_and, Bool.true_and, Bool.and_true,
      Bool.not_false, Bool.not_true, if_false, if_true]
    simp
  rw [hred]
  have haux := batchShareRecordsAux_both batchDocs senv (history.length + 1)
    batchDocs.length rn em wa 0
  refine ⟨?_, List.take_left history _, ?_⟩
  · simp [List.length_append, haux.1]
  · rw [List.drop_left history _]
    exact haux.2

/-- A concrete stored document used by the C4 witness. -/
def sampleDoc : DocumentItem :=
  mkDocItem (fun i => "d" ++ toString i) "2026-01-01" 0 (validEntry "a" "DocA") "" none

/-- Ambient share values used by the C4 witness. -/
def senvW : ShareEnv :=
  { sendSuccess := true, nowMs := "1700000000000", dateTime := "2026-01-01 00:00" }

/-- Witness for `C4_batch_both`: a one-document batch shared over both
channels appends exactly two records, one per channel. -/
theorem C4_batch_both_witness :
    (shareSubmit senvW ([] : List ShareRecord) ShareType.both true [sampleDoc] none "DocA"
      none "R" "a@b.c" "99").length =
      ([] : List ShareRecord).length + 2 * [sampleDoc].length ∧
    (shareSubmit senvW ([] : List ShareRecord) ShareType.both true [sampleDoc] none "DocA"
      none "R" "a@b.c" "99").take ([] : List ShareRecord).length = ([] : List ShareRecord) ∧
    ((shareSubmit senvW ([] : List ShareRecord) ShareType.both true [sampleDoc] none "DocA"
      none "R" "a@b.c" "99").drop ([] : List ShareRecord).length).map
        (fun r => (r.sharedVia, r.docName)) =
      ([sampleDoc].map (fun d =>
        [("Email", d.documentName), ("WhatsApp", d.documentName)])).join :=
  C4_batch_both senvW [] [sampleDoc] none "DocA" none "R" "a@b.c" "99" (by decide)

end ShareModal
